import Mathlib

/-!
Shallow embedding of the AMQP source connector (`src/sources/amqp.rs`):
the metadata enricher (`populate_event`), the event-stream builder inside
`receive_event`, the per-message send/finalize logic
(`finalize_event_stream`), the acknowledgement dispatcher (`handle_ack`),
and the ingestion loop (`run_amqp_source`).

Modelling conventions:
* Rust `u64` values (the broker delivery tag) are `Nat` with explicit
  reduction modulo `2 ^ 64` where the source casts; `as i64` is the
  two's-complement reinterpretation into `Int`.
* Timestamps are abstract instants (`Nat`); the impure call `Utc::now()`
  is threaded through as an explicit `now` argument.
* Asynchronous streams are serialized: the ingestion loop consumes a list
  of `LoopInput` values giving the arrival order that the `tokio::select!`
  scheduler chose between the shutdown signal, the finalizer's completion
  stream and the broker consumer stream.
* Side effects (internal event emissions, broker ack/reject calls,
  finalizer registrations) are collected into a trace, a `List Act`.
* External collaborators that live outside this file's source (the codec
  decoder, `SourceSender`, `lapin`, `vector_core::LogNamespace` insertion
  helpers, `vector_common::UnorderedFinalizer`) are modelled at their
  interface boundary; their definitions carry doc comments saying so.
-/

/-- A field value stored in a log event: string, integer, or timestamp. -/
inductive Value where
  | str (s : String)
  | int (i : Int)
  | timestamp (t : Nat)
  deriving DecidableEq, Repr

/-- A log event: top-level fields plus a metadata map keyed by
(namespace, key) pairs.  Both maps have lookup-first (shadowing)
association-list semantics. -/
structure LogEvent where
  fields : List (String × Value)
  metadata : List ((String × String) × Value)
  deriving DecidableEq, Repr

/-- First-match lookup in an association list. -/
def lookupA {κ : Type} [DecidableEq κ] : List (κ × Value) → κ → Option Value
  | [], _ => none
  | (k', v) :: rest, k => if k = k' then some v else lookupA rest k

/-- Look up a top-level event field. -/
def LogEvent.getField (e : LogEvent) (k : String) : Option Value :=
  lookupA e.fields k

/-- Look up a metadata entry under (namespace, key). -/
def LogEvent.getMeta (e : LogEvent) (nk : String × String) : Option Value :=
  lookupA e.metadata nk

/-- `LogEvent::insert`: set a top-level field, overwriting any existing
value (modelled by shadowing cons). -/
def LogEvent.insert (e : LogEvent) (k : String) (v : Value) : LogEvent :=
  { e with fields := (k, v) :: e.fields }

/-- `LogEvent::try_insert`: set a top-level field only when it is not
already present. -/
def LogEvent.tryInsert (e : LogEvent) (k : String) (v : Value) : LogEvent :=
  if (e.getField k).isSome then e else e.insert k v

/-- Set a metadata entry, overwriting any existing value. -/
def LogEvent.insertMeta (e : LogEvent) (nk : String × String) (v : Value) : LogEvent :=
  { e with metadata := (nk, v) :: e.metadata }

/-- `vector_core::config::LogNamespace`: which schema convention the
source is running under. -/
inductive LogNamespace where
  | Vector
  | Legacy
  deriving DecidableEq, Repr

/-- `vector_core::config::LegacyKey`: how a metadata field is placed when
running under the legacy namespace. -/
inductive LegacyKey where
  | InsertIfEmpty (k : String)
  | Overwrite (k : String)
  deriving DecidableEq, Repr

/-- Modelled from the spec: `LogNamespace::insert_source_metadata`
(`vector_core`, not under `src/`).  Mode B ("structured metadata") places
the field in the source's metadata namespace unconditionally; Mode A
("legacy") merges it into the record's top-level structure, only if not
already present when the legacy key is `InsertIfEmpty`. -/
def insert_source_metadata (source : String) (e : LogEvent)
    (legacyKey : Option LegacyKey) (metaKey : String) (v : Value)
    (ns : LogNamespace) : LogEvent :=
  match ns with
  | .Vector => e.insertMeta (source, metaKey) v
  | .Legacy =>
    match legacyKey with
    | some (.InsertIfEmpty k) => e.tryInsert k v
    | some (.Overwrite k) => e.insert k v
    | none => e

/-- Modelled from the spec: `LogNamespace::insert_vector_metadata`
(`vector_core`, not under `src/`).  Under the Vector namespace the field
goes into the `vector` metadata namespace; under the legacy namespace it
is merged into the record's top level if not already present. -/
def insert_vector_metadata (e : LogEvent) (legacyKey : String)
    (metaKey : String) (v : Value) (ns : LogNamespace) : LogEvent :=
  match ns with
  | .Vector => e.insertMeta ("vector", metaKey) v
  | .Legacy => e.tryInsert legacyKey v

/-- Modelled from the spec: the global `log_schema()` default key names
(`vector_core`, not under `src/`). -/
def log_schema_timestamp_key : String := "timestamp"

/-- Modelled from the spec: the global `log_schema()` source-type key. -/
def log_schema_source_type_key : String := "source_type"

/-- The source's name, `AmqpSourceConfig::NAME`. -/
def amqp_source_name : String := "amqp"

/-- The configurable part of `AmqpSourceConfig` that the ingestion path
reads (queue/consumer identify the subscription; the three key fields name
where legacy-mode metadata is merged). -/
structure AmqpSourceConfig where
  queue : String
  consumer : String
  routing_key_field : String
  exchange_key : String
  offset_key : String
  deriving DecidableEq, Repr

def default_queue : String := "vector"

def default_consumer : String := "vector"

def default_routing_key_field : String := "routing"

def default_exchange_key : String := "exchange"

def default_offset_key : String := "offset"

/-- The default configuration. -/
def defaultConfig : AmqpSourceConfig :=
  { queue := default_queue
    consumer := default_consumer
    routing_key_field := default_routing_key_field
    exchange_key := default_exchange_key
    offset_key := default_offset_key }

/-- Rust's `u64 as i64`: reduce modulo `2 ^ 64`, then reinterpret in
two's complement (values at or above `2 ^ 63` become negative). -/
def u64_as_i64 (n : Nat) : Int :=
  if n % 2 ^ 64 < 2 ^ 63 then ((n % 2 ^ 64 : Nat) : Int)
  else ((n % 2 ^ 64 : Nat) : Int) - 2 ^ 64

/-- The `Keys` struct passed to `populate_event`. -/
structure Keys where
  routing_key_field : String
  routing : String
  exchange_key : String
  exchange : String
  offset_key : String
  delivery_tag : Int
  deriving DecidableEq, Repr

/-- `populate_event`: attach routing, exchange, offset, source type and
timestamp metadata to one decoded event, following the namespacing mode.
`now` stands for the `Utc::now()` calls. -/
def populate_event (e : LogEvent) (timestamp : Option Nat) (keys : Keys)
    (ns : LogNamespace) (now : Nat) : LogEvent :=
  let e1 := insert_source_metadata amqp_source_name e
    (some (.InsertIfEmpty keys.routing_key_field)) "routing"
    (.str keys.routing) ns
  let e2 := insert_source_metadata amqp_source_name e1
    (some (.InsertIfEmpty keys.exchange_key)) "exchange"
    (.str keys.exchange) ns
  let e3 := insert_source_metadata amqp_source_name e2
    (some (.InsertIfEmpty keys.offset_key)) "offset"
    (.int keys.delivery_tag) ns
  let e4 := insert_vector_metadata e3 log_schema_source_type_key
    "source_type" (.str amqp_source_name) ns
  match ns with
  | .Vector =>
    let e5 :=
      match timestamp with
      | some ts => e4.insertMeta (amqp_source_name, "timestamp") (.timestamp ts)
      | none => e4
    e5.insertMeta ("vector", "ingest_timestamp") (.timestamp now)
  | .Legacy =>
    e4.tryInsert log_schema_timestamp_key
      (.timestamp (timestamp.getD now))

/-- The internal events the ingestion path emits (`emit!` calls and the
`error!` log for a failed ack/reject is folded into its dedicated event). -/
inductive Emitted where
  | amqpBytesReceived (byte_size : Nat)
  | eventsReceived (count : Nat)
  | streamClosedError
  | amqpEventError
  | amqpAckError
  | amqpRejectError
  deriving DecidableEq, Repr

/-- One observable side effect of the ingestion path: an internal event
emission, a broker-level ack or reject call on an acker (identified by
its id), or a finalizer registration of an acker. -/
inductive Act where
  | emit (e : Emitted)
  | brokerAck (acker : Nat)
  | brokerReject (acker : Nat)
  | register (acker : Nat)
  deriving DecidableEq, Repr

/-- Modelled from the spec: one decode attempt of the external
decoder/framing layer (`codecs`, not under `src/`): either a chunk of
zero or more decoded events with its byte count, or an error carrying the
continuable-vs-fatal flag returned by `can_continue`. -/
inductive DecodeResult where
  | ok (events : List LogEvent) (byte_size : Nat)
  | err (can_continue : Bool)
  deriving DecidableEq, Repr

/-- `lapin::acker::Acker`: the single-use acknowledgement capability of
one delivery.  `ackOk` / `rejectOk` are the environment's oracle for
whether a broker ack / reject call on this acker succeeds. -/
structure Acker where
  id : Nat
  ackOk : Bool
  rejectOk : Bool
  deriving DecidableEq, Repr

/-- `lapin::message::Delivery`: one message received from the broker.
`decode` is the oracle for what the external decoder yields on this
payload, and `sendOk` is the oracle for whether
`out.send_event_stream` succeeds for this message's record stream. -/
structure Delivery where
  routing_key : String
  exchange : String
  delivery_tag : Nat
  timestamp : Option Nat
  acker : Acker
  decode : List DecodeResult
  sendOk : Bool
  deriving DecidableEq, Repr

/-- The `Keys` value built inside `receive_event` for one delivery; the
offset is the delivery tag cast `as i64`. -/
def keysOf (config : AmqpSourceConfig) (msg : Delivery) : Keys :=
  { routing_key_field := config.routing_key_field
    exchange_key := config.exchange_key
    offset_key := config.offset_key
    routing := msg.routing_key
    exchange := msg.exchange
    delivery_tag := u64_as_i64 msg.delivery_tag }

/-- The event stream built by the `stream!` block in `receive_event`:
each successful decode chunk's events are enriched by `populate_event`
and yielded in decode order; a continuable decode error is skipped; a
non-continuable decode error breaks the stream, discarding the rest. -/
def eventStream (timestamp : Option Nat) (keys : Keys)
    (ns : LogNamespace) (now : Nat) : List DecodeResult → List LogEvent
  | [] => []
  | .ok events _ :: rest =>
    events.map (fun e => populate_event e timestamp keys ns now)
      ++ eventStream timestamp keys ns now rest
  | .err c :: rest =>
    if c then eventStream timestamp keys ns now rest else []

/-- The telemetry emitted while the `stream!` block runs: per successful
chunk, `AmqpBytesReceived` then `EventsReceived`; errors are logged by the
decoder itself (outside this model). -/
def streamEmits : List DecodeResult → List Act
  | [] => []
  | .ok events byte_size :: rest =>
    .emit (.amqpBytesReceived byte_size) :: .emit (.eventsReceived events.length)
      :: streamEmits rest
  | .err c :: rest => if c then streamEmits rest else []

/-- `FinalizerEntry`: what the finalizer stores per registered batch —
the delivery's acker. -/
structure FinalizerEntry where
  acker : Acker
  deriving DecidableEq, Repr

/-- `impl From<Delivery> for FinalizerEntry`. -/
def FinalizerEntry.fromDelivery (msg : Delivery) : FinalizerEntry :=
  { acker := msg.acker }

/-- `BatchStatus` (`vector_core::event`): the terminal disposition the
downstream pipeline reports for a batch. -/
inductive BatchStatus where
  | Delivered
  | Errored
  | Rejected
  deriving DecidableEq, Repr

/-- Modelled from the spec:
`UnorderedFinalizer::maybe_new` (`vector_common`, not under `src/`)
returns a finalizer exactly when acknowledgements are enabled (we keep
only its presence; its state is visible through `Act.register` and the
completion inputs of the loop). -/
def maybe_new (acknowledgements : Bool) : Option Unit :=
  if acknowledgements then some () else none

/-- `finalize_event_stream`: send one message's enriched record stream
downstream.  With a finalizer (acks enabled): attach a batch notifier,
send, and register `(entry, receiver)` only on success; on failure emit
`StreamClosedError`.  Without a finalizer (acks disabled): send, ack the
broker message immediately on success (emitting `AmqpAckError` if the ack
call fails); on failure emit `StreamClosedError`. -/
def finalize_event_stream (finalizer : Option Unit)
    (_stream : List LogEvent) (msg : Delivery) : List Act :=
  match finalizer with
  | some _ =>
    if msg.sendOk then [.register msg.acker.id]
    else [.emit .streamClosedError]
  | none =>
    if msg.sendOk then
      .brokerAck msg.acker.id ::
        (if msg.acker.ackOk then [] else [.emit .amqpAckError])
    else [.emit .streamClosedError]

/-- `receive_event`: decode one delivery into its enriched event stream
(whose telemetry is `streamEmits msg.decode`), then hand it to
`finalize_event_stream`.  The `Bool` is its `Result<(), ()>`: the source
returns `Ok(())` on every path. -/
def receive_event (config : AmqpSourceConfig) (now : Nat)
    (ns : LogNamespace) (finalizer : Option Unit) (msg : Delivery) :
    List Act × Bool :=
  let stream := eventStream msg.timestamp (keysOf config msg) ns now msg.decode
  (streamEmits msg.decode ++ finalize_event_stream finalizer stream msg, true)

/-- `handle_ack`: dispatch one drained completion — `Delivered` acks the
broker message, `Errored` and `Rejected` reject it; a failed broker call
only emits its error event. -/
def handle_ack (status : BatchStatus) (entry : FinalizerEntry) : List Act :=
  match status with
  | .Delivered =>
    .brokerAck entry.acker.id ::
      (if entry.acker.ackOk then [] else [.emit .amqpAckError])
  | .Errored =>
    .brokerReject entry.acker.id ::
      (if entry.acker.rejectOk then [] else [.emit .amqpRejectError])
  | .Rejected =>
    .brokerReject entry.acker.id ::
      (if entry.acker.rejectOk then [] else [.emit .amqpRejectError])

/-- One arrival at the `tokio::select!` of the ingestion loop, in the
order the scheduler resolved them: the shutdown signal fired; the
finalizer's completion stream yielded `(status, entry)`; the consumer
stream yielded a message, a broker-level error, or ended. -/
inductive LoopInput where
  | shutdown
  | completion (status : BatchStatus) (entry : FinalizerEntry)
  | message (msg : Delivery)
  | consumeError
  | streamEnd
  deriving DecidableEq, Repr

/-- Whether the loop returned `Ok(())` or `Err(())`. -/
inductive LoopResult where
  | ok
  | fail
  deriving DecidableEq, Repr

/-- The body of the ingestion loop of `run_amqp_source`, consuming the
serialized arrivals: shutdown and consumer-stream end break out with
`Ok`; a broker consume error emits `AmqpEventError` and returns `Err`; a
completion is dispatched through `handle_ack` when a finalizer exists
(without one the completion stream never yields, so the arrival is a
no-op); a message goes through `receive_event`, whose `Err` would abort
the loop via `?` (it never occurs).  An exhausted script means the loop
is still suspended; we close the trace there. -/
def loopRun (config : AmqpSourceConfig) (now : Nat) (ns : LogNamespace)
    (finalizer : Option Unit) : List LoopInput → LoopResult × List Act
  | [] => (.ok, [])
  | .shutdown :: _ => (.ok, [])
  | .streamEnd :: _ => (.ok, [])
  | .consumeError :: _ => (.fail, [.emit .amqpEventError])
  | .completion status entry :: rest =>
    match finalizer with
    | some _ =>
      let r := loopRun config now ns finalizer rest
      (r.1, handle_ack status entry ++ r.2)
    | none => loopRun config now ns finalizer rest
  | .message msg :: rest =>
    let (acts, ok) := receive_event config now ns finalizer msg
    if ok then
      let r := loopRun config now ns finalizer rest
      (r.1, acts ++ r.2)
    else (.fail, acts)

/-- `run_amqp_source`: create the finalizer pair with `maybe_new`,
subscribe the consumer (`basic_consume`; `subscribeOk` is the oracle for
it — failure returns `Err` before the loop), then run the loop. -/
def run_amqp_source (config : AmqpSourceConfig) (now : Nat)
    (ns : LogNamespace) (acknowledgements : Bool) (subscribeOk : Bool)
    (inputs : List LoopInput) : LoopResult × List Act :=
  let finalizer := maybe_new acknowledgements
  if subscribeOk then loopRun config now ns finalizer inputs
  else (.fail, [])

/-- Is this action a broker ack call on acker `a`? -/
def isAckOn (a : Nat) : Act → Bool
  | .brokerAck b => b = a
  | _ => false

/-- Is this action a broker reject call on acker `a`? -/
def isRejectOn (a : Nat) : Act → Bool
  | .brokerReject b => b = a
  | _ => false

/-- Is this action a broker ack or reject call on acker `a`? -/
def isCallOn (a : Nat) : Act → Bool
  | .brokerAck b => b = a
  | .brokerReject b => b = a
  | _ => false

/-- Is this action a broker ack or reject call (on any acker)? -/
def isCall : Act → Bool
  | .brokerAck _ => true
  | .brokerReject _ => true
  | _ => false

/-- Is this action a finalizer registration of acker `a`? -/
def isRegisterOn (a : Nat) : Act → Bool
  | .register b => b = a
  | _ => false

/-- Is this action a finalizer registration? -/
def isRegister : Act → Bool
  | .register _ => true
  | _ => false

/-- Is this action the emission of internal event `ev`? -/
def isEmitOf (ev : Emitted) : Act → Bool
  | .emit e => e = ev
  | _ => false

/-- Number of broker ack calls on acker `a` in a trace. -/
def acksOn (tr : List Act) (a : Nat) : Nat := tr.countP (isAckOn a)

/-- Number of broker reject calls on acker `a` in a trace. -/
def rejectsOn (tr : List Act) (a : Nat) : Nat := tr.countP (isRejectOn a)

/-- Number of broker ack or reject calls on acker `a` in a trace. -/
def callsOn (tr : List Act) (a : Nat) : Nat := tr.countP (isCallOn a)

/-- Number of broker ack or reject calls (on any acker) in a trace. -/
def totalCalls (tr : List Act) : Nat := tr.countP isCall

/-- Number of finalizer registrations of acker `a` in a trace. -/
def registersOn (tr : List Act) (a : Nat) : Nat := tr.countP (isRegisterOn a)

/-- Number of finalizer registrations in a trace. -/
def registerCount (tr : List Act) : Nat := tr.countP isRegister

/-- Number of emissions of internal event `ev` in a trace. -/
def emitsOf (tr : List Act) (ev : Emitted) : Nat := tr.countP (isEmitOf ev)

/-- Number of completion arrivals for acker `a` in a loop-input script. -/
def completionsFor : List LoopInput → Nat → Nat
  | [], _ => 0
  | .completion _ entry :: rest, a =>
    (if entry.acker.id = a then 1 else 0) + completionsFor rest a
  | _ :: rest, a => completionsFor rest a

/-- A sample acker whose broker calls succeed. -/
def acker1 : Acker := { id := 1, ackOk := true, rejectOk := true }

/-- A second sample acker. -/
def acker2 : Acker := { id := 2, ackOk := true, rejectOk := true }

/-- A sample delivery whose downstream send fails. -/
def msgFail : Delivery :=
  { routing_key := "rk", exchange := "ex", delivery_tag := 1,
    timestamp := none, acker := acker1, decode := [], sendOk := false }

/-- A sample delivery whose downstream send succeeds. -/
def msgOk : Delivery :=
  { routing_key := "rk", exchange := "ex", delivery_tag := 2,
    timestamp := none, acker := acker2, decode := [], sendOk := true }

/-- A sample delivery whose broker delivery tag has the top bit set. -/
def msgBigTag : Delivery :=
  { routing_key := "rk", exchange := "ex", delivery_tag := 2 ^ 63,
    timestamp := none, acker := acker1, decode := [], sendOk := true }

/-- The empty log event. -/
def emptyEvent : LogEvent := { fields := [], metadata := [] }

/-- A sample log event that already carries a timestamp field. -/
def eventWithTs : LogEvent :=
  { fields := [("timestamp", .timestamp 5)], metadata := [] }

/-- Sample enrichment keys using the default configured field names. -/
def keys0 : Keys :=
  { routing_key_field := "routing", routing := "rk",
    exchange_key := "exchange", exchange := "ex",
    offset_key := "offset", delivery_tag := 42 }

/-- The mode-dependent enrichment behaviour of `populate_event` stated as
one proposition over an arbitrary starting event: legacy mode merges
routing/exchange/offset at their configured keys and the timestamp at the
schema timestamp key, each only if not already present (the timestamp
value falling back from the broker timestamp to `now`); Vector mode sets
the `amqp` metadata fields unconditionally, records the broker timestamp
only when present, and always records the ingest timestamp. -/
def PopulateSpec (e : LogEvent) (ts : Option Nat) (keys : Keys)
    (now : Nat) : Prop :=
  (populate_event e ts keys .Legacy now).getField keys.routing_key_field
      = some ((e.getField keys.routing_key_field).getD (.str keys.routing))
  ∧ (populate_event e ts keys .Legacy now).getField keys.exchange_key
      = some ((e.getField keys.exchange_key).getD (.str keys.exchange))
  ∧ (populate_event e ts keys .Legacy now).getField keys.offset_key
      = some ((e.getField keys.offset_key).getD (.int keys.delivery_tag))
  ∧ (populate_event e ts keys .Legacy now).getField "timestamp"
      = some ((e.getField "timestamp").getD (.timestamp (ts.getD now)))
  ∧ (populate_event e ts keys .Vector now).getMeta ("amqp", "routing")
      = some (.str keys.routing)
  ∧ (populate_event e ts keys .Vector now).getMeta ("amqp", "exchange")
      = some (.str keys.exchange)
  ∧ (populate_event e ts keys .Vector now).getMeta ("amqp", "offset")
      = some (.int keys.delivery_tag)
  ∧ (populate_event e ts keys .Vector now).getMeta ("amqp", "timestamp")
      = (match ts with
         | some t => some (.timestamp t)
         | none => e.getMeta ("amqp", "timestamp"))
  ∧ (populate_event e ts keys .Vector now).getMeta ("vector", "ingest_timestamp")
      = some (.timestamp now)

/-- A predicate that ignores emissions counts nothing in the stream
telemetry. -/
theorem streamEmits_countP (p : Act → Bool)
    (h : ∀ ev, p (.emit ev) = false) (dr : List DecodeResult) :
    (streamEmits dr).countP p = 0 := by
  induction dr with
  | nil => simp [streamEmits]
  | cons head rest ih =>
    cases head with
    | ok events byte_size => simp [streamEmits, List.countP_cons, h, ih]
    | err c => cases c <;> simp [streamEmits, ih]

/-- The dispatcher makes exactly one broker call on the entry's acker. -/
theorem handle_ack_callsOn (status : BatchStatus) (entry : FinalizerEntry)
    (a : Nat) :
    callsOn (handle_ack status entry) a
      = if entry.acker.id = a then 1 else 0 := by
  rcases status with _ | _ | _ <;>
    rcases h : entry.acker.ackOk with _ | _ <;>
    rcases h' : entry.acker.rejectOk with _ | _ <;>
    by_cases ha : entry.acker.id = a <;>
    simp [handle_ack, callsOn, List.countP_cons, isCallOn, h, h', ha]

/-- The dispatcher never registers anything. -/
theorem handle_ack_registerCount (status : BatchStatus)
    (entry : FinalizerEntry) : registerCount (handle_ack status entry) = 0 := by
  rcases status with _ | _ | _ <;>
    rcases h : entry.acker.ackOk with _ | _ <;>
    rcases h' : entry.acker.rejectOk with _ | _ <;>
    simp [handle_ack, registerCount, List.countP_cons, isRegister, h, h']

/-- With acknowledgements enabled, handling one message makes no broker
ack or reject call at all. -/
theorem receive_event_enabled_callsOn (config : AmqpSourceConfig)
    (now : Nat) (ns : LogNamespace) (msg : Delivery) (a : Nat) :
    callsOn (receive_event config now ns (some ()) msg).1 a = 0 := by
  rcases h : msg.sendOk with _ | _ <;>
    simp [receive_event, finalize_event_stream, h, callsOn, List.countP_append,
      List.countP_cons, isCallOn,
      streamEmits_countP (isCallOn a) (fun _ => rfl)]

/-- With acknowledgements enabled, the broker calls in the loop's trace
are bounded by the completion arrivals: one call per drained completion
of that acker, none from message handling. -/
theorem loopRun_callsOn_le_completions (config : AmqpSourceConfig)
    (now : Nat) (ns : LogNamespace) (inputs : List LoopInput) (a : Nat) :
    callsOn (loopRun config now ns (some ()) inputs).2 a
      ≤ completionsFor inputs a := by
  induction inputs with
  | nil => simp [loopRun, callsOn]
  | cons head rest ih =>
    cases head with
    | shutdown => simp [loopRun, callsOn, completionsFor]
    | streamEnd => simp [loopRun, callsOn, completionsFor]
    | consumeError =>
      simp [loopRun, callsOn, completionsFor, List.countP_cons, isCallOn]
    | completion status entry =>
      have hc := handle_ack_callsOn status entry a
      simp only [loopRun, completionsFor, callsOn, List.countP_append]
      rw [callsOn] at hc ih
      omega
    | message msg =>
      have hm := receive_event_enabled_callsOn config now ns msg a
      rw [callsOn] at hm
      simp only [receive_event, List.countP_append] at hm
      rw [callsOn] at ih ⊢
      simp [loopRun, receive_event, completionsFor, List.countP_append]
      omega

/-- Looking up after an overwriting field insert. -/
theorem getField_insert (e : LogEvent) (k : String) (v : Value)
    (k' : String) :
    (e.insert k v).getField k' = if k' = k then some v else e.getField k' := by
  simp [LogEvent.insert, LogEvent.getField, lookupA]

/-- Looking up the inserted key after `try_insert`: the existing value
wins, otherwise the new one lands. -/
theorem getField_tryInsert_same (e : LogEvent) (k : String) (v : Value) :
    (e.tryInsert k v).getField k = some ((e.getField k).getD v) := by
  rcases h : e.getField k with _ | val <;>
    simp [LogEvent.tryInsert, h, getField_insert]

/-- `try_insert` leaves all other keys untouched. -/
theorem getField_tryInsert_other (e : LogEvent) (k : String) (v : Value)
    (k' : String) (h : k' ≠ k) :
    (e.tryInsert k v).getField k' = e.getField k' := by
  by_cases hs : (e.getField k).isSome <;>
    simp [LogEvent.tryInsert, hs, getField_insert, h]

/-- Metadata inserts do not change top-level fields. -/
theorem getField_insertMeta (e : LogEvent) (nk : String × String)
    (v : Value) (k : String) :
    (e.insertMeta nk v).getField k = e.getField k := rfl

/-- Field inserts do not change metadata. -/
theorem getMeta_insert (e : LogEvent) (k : String) (v : Value)
    (nk : String × String) :
    (e.insert k v).getMeta nk = e.getMeta nk := rfl

/-- `try_insert` does not change metadata. -/
theorem getMeta_tryInsert (e : LogEvent) (k : String) (v : Value)
    (nk : String × String) :
    (e.tryInsert k v).getMeta nk = e.getMeta nk := by
  by_cases hs : (e.getField k).isSome <;>
    simp [LogEvent.tryInsert, hs, LogEvent.insert, LogEvent.getMeta]

/-- Looking up metadata after a metadata insert. -/
theorem getMeta_insertMeta (e : LogEvent) (nk : String × String) (v : Value)
    (nk' : String × String) :
    (e.insertMeta nk v).getMeta nk'
      = if nk' = nk then some v else e.getMeta nk' := by
  simp [LogEvent.insertMeta, LogEvent.getMeta, lookupA]

/-- One message arrival makes the loop run `receive_event`, append its
trace, and continue with the rest (it always returns `Ok`). -/
theorem loopRun_message_cons (config : AmqpSourceConfig) (now : Nat)
    (ns : LogNamespace) (f : Option Unit) (msg : Delivery)
    (rest : List LoopInput) :
    loopRun config now ns f (.message msg :: rest)
      = ((loopRun config now ns f rest).1,
         (receive_event config now ns f msg).1
           ++ (loopRun config now ns f rest).2) := by
  simp [loopRun, receive_event]

/-- A run over a block of message arrivals concatenates the per-message
traces, in order, in front of whatever the remaining arrivals produce. -/
theorem loopRun_messages (config : AmqpSourceConfig) (now : Nat)
    (ns : LogNamespace) (f : Option Unit) (msgs : List Delivery)
    (rest : List LoopInput) :
    loopRun config now ns f (msgs.map .message ++ rest)
      = ((loopRun config now ns f rest).1,
         (msgs.map (fun m => (receive_event config now ns f m).1)).flatten
           ++ (loopRun config now ns f rest).2) := by
  induction msgs with
  | nil => simp
  | cons m ms ih => simp [loopRun_message_cons, ih]

/-- With acknowledgements enabled, handling one message makes no broker
call at all (registration or an error emission, never ack/reject). -/
theorem receive_event_enabled_totalCalls (config : AmqpSourceConfig)
    (now : Nat) (ns : LogNamespace) (msg : Delivery) :
    totalCalls (receive_event config now ns (some ()) msg).1 = 0 := by
  rcases h : msg.sendOk with _ | _ <;>
    simp [receive_event, finalize_event_stream, h, totalCalls,
      List.countP_append, List.countP_cons, isCall,
      streamEmits_countP isCall (fun _ => rfl)]

/-- The concatenated traces of a block of messages handled with
acknowledgements enabled contain no broker call. -/
theorem flatten_totalCalls_zero (config : AmqpSourceConfig) (now : Nat)
    (ns : LogNamespace) (msgs : List Delivery) :
    totalCalls ((msgs.map
        (fun m => (receive_event config now ns (some ()) m).1)).flatten) = 0 := by
  induction msgs with
  | nil => simp [totalCalls]
  | cons m ms ih =>
    have h := receive_event_enabled_totalCalls config now ns m
    rw [totalCalls] at h ih ⊢
    simp [List.countP_append, h, ih]

/-- C6: for every message payload, the built event stream yields the
enriched records of each successfully decoded chunk in decode order; a
continuable decode error skips that chunk and decoding continues, and a
non-continuable decode error terminates the stream immediately,
discarding all remaining chunks. -/
theorem eventStream_decode_boundary (ts : Option Nat) (keys : Keys)
    (ns : LogNamespace) (now : Nat) (chunks : List (List LogEvent × Nat))
    (rest : List DecodeResult) :
    eventStream ts keys ns now (chunks.map (fun c => .ok c.1 c.2))
      = (chunks.map
          (fun c => c.1.map (fun e => populate_event e ts keys ns now))).flatten
    ∧ eventStream ts keys ns now
        (chunks.map (fun c => .ok c.1 c.2) ++ .err false :: rest)
      = (chunks.map
          (fun c => c.1.map (fun e => populate_event e ts keys ns now))).flatten
    ∧ eventStream ts keys ns now
        (chunks.map (fun c => .ok c.1 c.2) ++ .err true :: rest)
      = (chunks.map
          (fun c => c.1.map (fun e => populate_event e ts keys ns now))).flatten
          ++ eventStream ts keys ns now rest := by
  refine ⟨?_, ?_, ?_⟩ <;>
  · induction chunks with
    | nil => simp [eventStream]
    | cons c cs ih => simp [eventStream, ih]

/-- C9: a broker-level consume error, wherever it occurs in the arrival
order, makes the loop emit `AmqpEventError` and terminate returning
`Err` to its caller. -/
theorem consume_error_fails_loop (config : AmqpSourceConfig) (now : Nat)
    (ns : LogNamespace) (acks : Bool) (msgs : List Delivery)
    (rest : List LoopInput) :
    run_amqp_source config now ns acks true
        (msgs.map .message ++ .consumeError :: rest)
      = (.fail,
         (msgs.map
            (fun m => (receive_event config now ns (maybe_new acks) m).1)).flatten
           ++ [.emit .amqpEventError]) := by
  simp [run_amqp_source, loopRun_messages, loopRun]

/-- C4: the dispatcher maps `Delivered` to exactly one broker ack and
`Errored`/`Rejected` to exactly one broker reject on the entry's handle;
a failed broker call only emits its error event, and the loop neither
retries nor terminates — it continues with the remaining arrivals. -/
theorem handle_ack_dispatch (config : AmqpSourceConfig) (now : Nat)
    (ns : LogNamespace) (status : BatchStatus) (entry : FinalizerEntry)
    (rest : List LoopInput) :
    acksOn (handle_ack status entry) entry.acker.id
        = (if status = .Delivered then 1 else 0)
    ∧ rejectsOn (handle_ack status entry) entry.acker.id
        = (if status = .Delivered then 0 else 1)
    ∧ totalCalls (handle_ack status entry) = 1
    ∧ registerCount (handle_ack status entry) = 0
    ∧ emitsOf (handle_ack status entry) .amqpAckError
        = (if status = .Delivered ∧ entry.acker.ackOk = false then 1 else 0)
    ∧ emitsOf (handle_ack status entry) .amqpRejectError
        = (if (status = .Errored ∨ status = .Rejected)
              ∧ entry.acker.rejectOk = false then 1 else 0)
    ∧ loopRun config now ns (some ()) (.completion status entry :: rest)
        = ((loopRun config now ns (some ()) rest).1,
           handle_ack status entry ++ (loopRun config now ns (some ()) rest).2) := by
  refine ⟨?_, ?_, ?_, ?_, ?_, ?_, ?_⟩ <;>
    rcases status with _ | _ | _ <;>
    rcases h : entry.acker.ackOk with _ | _ <;>
    rcases h' : entry.acker.rejectOk with _ | _ <;>
    simp [handle_ack, loopRun, acksOn, rejectsOn, totalCalls, registerCount,
      emitsOf, List.countP_cons, isAckOn, isRejectOn, isCall, isRegister,
      isEmitOf, h, h']

/-- C8: when the shutdown signal fires after any block of message
arrivals (so with any number of finalizer entries outstanding), the loop
exits successfully in that iteration, having made no broker ack or
reject call at all; the consumer stream ending exits the loop the same
clean way. -/
theorem shutdown_exits_cleanly (config : AmqpSourceConfig) (now : Nat)
    (ns : LogNamespace) (msgs : List Delivery)
    (rest rest2 : List LoopInput) :
    run_amqp_source config now ns true true
        (msgs.map .message ++ .shutdown :: rest)
      = (.ok, (msgs.map
          (fun m => (receive_event config now ns (some ()) m).1)).flatten)
    ∧ totalCalls (run_amqp_source config now ns true true
        (msgs.map .message ++ .shutdown :: rest)).2 = 0
    ∧ run_amqp_source config now ns true true
        (msgs.map .message ++ .streamEnd :: rest2)
      = (.ok, (msgs.map
          (fun m => (receive_event config now ns (some ()) m).1)).flatten) := by
  have h1 : run_amqp_source config now ns true true
      (msgs.map .message ++ .shutdown :: rest)
      = (.ok, (msgs.map
          (fun m => (receive_event config now ns (some ()) m).1)).flatten) := by
    simp [run_amqp_source, maybe_new, loopRun_messages, loopRun]
  refine ⟨h1, ?_, ?_⟩
  · rw [h1]
    exact flatten_totalCalls_zero config now ns msgs
  · simp [run_amqp_source, maybe_new, loopRun_messages, loopRun]

/-- C1 counterexample: with acknowledgements enabled, after a message
whose downstream send fails the loop does not terminate — it goes on to
process the next message (registering its batch) and returns `Ok` at
shutdown, so no error propagates to the caller. -/
theorem send_failure_loop_continues_cex :
    run_amqp_source defaultConfig 0 .Legacy true true
        [.message msgFail, .message msgOk, .shutdown]
      = (.ok, [.emit .streamClosedError, .register 2]) := rfl

/-- C1 (amended): if the downstream send of a message's record stream
fails, the source emits `StreamClosedError` and neither acknowledges nor
registers that message, in both acknowledgement modes; but
`receive_event` still returns `Ok`, so the ingestion loop continues with
the subsequent arrivals instead of terminating. -/
theorem send_failure_emits_and_continues (config : AmqpSourceConfig)
    (now : Nat) (ns : LogNamespace) (f : Option Unit) (msg : Delivery)
    (rest : List LoopInput) (h : msg.sendOk = false) :
    finalize_event_stream f
        (eventStream msg.timestamp (keysOf config msg) ns now msg.decode) msg
      = [.emit .streamClosedError]
    ∧ (receive_event config now ns f msg).2 = true
    ∧ totalCalls (receive_event config now ns f msg).1 = 0
    ∧ registerCount (receive_event config now ns f msg).1 = 0
    ∧ Act.emit .streamClosedError ∈ (receive_event config now ns f msg).1
    ∧ loopRun config now ns f (.message msg :: rest)
      = ((loopRun config now ns f rest).1,
         (receive_event config now ns f msg).1
           ++ (loopRun config now ns f rest).2) := by
  refine ⟨?_, rfl, ?_, ?_, ?_, loopRun_message_cons config now ns f msg rest⟩
  · cases f <;> simp [finalize_event_stream, h]
  · cases f <;>
      simp [receive_event, finalize_event_stream, h, totalCalls,
        List.countP_append, List.countP_cons, isCall,
        streamEmits_countP isCall (fun _ => rfl)]
  · cases f <;>
      simp [receive_event, finalize_event_stream, h, registerCount,
        List.countP_append, List.countP_cons, isRegister,
        streamEmits_countP isRegister (fun _ => rfl)]
  · cases f <;> simp [receive_event, finalize_event_stream, h]

/-- Witness for the amended C1 theorem at a concrete failing delivery. -/
theorem send_failure_emits_and_continues_w :
    msgFail.sendOk = false
    ∧ (finalize_event_stream (some ())
          (eventStream msgFail.timestamp (keysOf defaultConfig msgFail)
            .Legacy 0 msgFail.decode) msgFail
        = [.emit .streamClosedError]
      ∧ (receive_event defaultConfig 0 .Legacy (some ()) msgFail).2 = true
      ∧ totalCalls (receive_event defaultConfig 0 .Legacy (some ()) msgFail).1 = 0
      ∧ registerCount (receive_event defaultConfig 0 .Legacy (some ()) msgFail).1 = 0
      ∧ Act.emit .streamClosedError
          ∈ (receive_event defaultConfig 0 .Legacy (some ()) msgFail).1
      ∧ loopRun defaultConfig 0 .Legacy (some ()) [.message msgFail]
        = ((loopRun defaultConfig 0 .Legacy (some ()) []).1,
           (receive_event defaultConfig 0 .Legacy (some ()) msgFail).1
             ++ (loopRun defaultConfig 0 .Legacy (some ()) []).2)) :=
  ⟨rfl, send_failure_emits_and_continues defaultConfig 0 .Legacy (some ())
    msgFail [] rfl⟩

/-- No run of the loop with acknowledgements disabled ever registers
anything with a finalizer. -/
theorem loopRun_disabled_registerCount (config : AmqpSourceConfig)
    (now : Nat) (ns : LogNamespace) (inputs : List LoopInput) :
    registerCount (loopRun config now ns none inputs).2 = 0 := by
  induction inputs with
  | nil => simp [loopRun, registerCount]
  | cons head rest ih =>
    cases head with
    | shutdown => simp [loopRun, registerCount]
    | streamEnd => simp [loopRun, registerCount]
    | consumeError =>
      simp [loopRun, registerCount, List.countP_cons, isRegister]
    | completion status entry => simpa [loopRun] using ih
    | message msg =>
      have hz : registerCount (receive_event config now ns none msg).1 = 0 := by
        rcases hs : msg.sendOk with _ | _ <;>
          rcases ha : msg.acker.ackOk with _ | _ <;>
          simp [receive_event, finalize_event_stream, hs, ha, registerCount,
            List.countP_append, List.countP_cons, isRegister,
            streamEmits_countP isRegister (fun _ => rfl)]
      rw [registerCount] at hz ih ⊢
      rw [loopRun_message_cons]
      simp [List.countP_append, hz, ih]

/-- C5: with acknowledgement tracking disabled no finalizer is created
(`maybe_new false` is `None`) and no run ever registers anything; a
successful downstream send is followed immediately, inside the handling
of that same message, by exactly one broker ack on that message's
handle (it is the very first action `finalize_event_stream` performs
after the send). -/
theorem disabled_acks_immediate (config : AmqpSourceConfig) (now : Nat)
    (ns : LogNamespace) (msg : Delivery) (rest inputs : List LoopInput) :
    maybe_new false = none
    ∧ registerCount (run_amqp_source config now ns false true inputs).2 = 0
    ∧ acksOn (receive_event config now ns none msg).1 msg.acker.id
        = (if msg.sendOk then 1 else 0)
    ∧ (finalize_event_stream none
        (eventStream msg.timestamp (keysOf config msg) ns now msg.decode)
        msg).head?
        = some (if msg.sendOk then .brokerAck msg.acker.id
                else .emit .streamClosedError)
    ∧ loopRun config now ns none (.message msg :: rest)
      = ((loopRun config now ns none rest).1,
         (receive_event config now ns none msg).1
           ++ (loopRun config now ns none rest).2) := by
  refine ⟨rfl, ?_, ?_, ?_, loopRun_message_cons config now ns none msg rest⟩
  · simpa [run_amqp_source, maybe_new] using
      loopRun_disabled_registerCount config now ns inputs
  · rcases hs : msg.sendOk with _ | _ <;>
      rcases ha : msg.acker.ackOk with _ | _ <;>
      simp [receive_event, finalize_event_stream, hs, ha, acksOn,
        List.countP_append, List.countP_cons, isAckOn,
        streamEmits_countP (isAckOn msg.acker.id) (fun _ => rfl)]
  · rcases hs : msg.sendOk with _ | _ <;>
      simp [finalize_event_stream, hs]

/-- C2: with acknowledgements enabled, under the finalizer's contract
that each registered entry's completion is yielded at most once, at most
one broker ack-or-reject call is ever made on any given handle over the
whole run (the handle's single ownership — loop, then finalizer entry,
then dispatcher — is observable as this at-most-once disposition). -/
theorem single_disposition (config : AmqpSourceConfig) (now : Nat)
    (ns : LogNamespace) (inputs : List LoopInput) (a : Nat)
    (h : completionsFor inputs a ≤ 1) :
    callsOn (run_amqp_source config now ns true true inputs).2 a ≤ 1 := by
  have hle := loopRun_callsOn_le_completions config now ns inputs a
  simp only [run_amqp_source, maybe_new, if_pos] at *
  omega

/-- Witness for C2 at a concrete run with one completion arrival. -/
theorem single_disposition_w :
    completionsFor [.completion .Delivered ⟨acker1⟩, .shutdown] 1 ≤ 1
    ∧ callsOn (run_amqp_source defaultConfig 0 .Legacy true true
        [.completion .Delivered ⟨acker1⟩, .shutdown]).2 1 ≤ 1 :=
  ⟨by decide,
   single_disposition defaultConfig 0 .Legacy
     [.completion .Delivered ⟨acker1⟩, .shutdown] 1 (by decide)⟩

/-- C3: with acknowledgements enabled, a message's entry is registered
with the finalizer exactly when its downstream send succeeds; on send
failure the message's whole trace is the stream telemetry plus a
`StreamClosedError`, and — since an unregistered handle never completes
(the finalizer contract, expressed by the completion hypothesis) — no
broker ack or reject is ever made on its handle over the whole run. -/
theorem registration_iff_send_success (config : AmqpSourceConfig)
    (now : Nat) (ns : LogNamespace) (msg msg2 : Delivery)
    (inputs : List LoopInput) (h1 : msg.sendOk = false)
    (h2 : completionsFor inputs msg.acker.id = 0) :
    registersOn (receive_event config now ns (some ()) msg2).1 msg2.acker.id
        = (if msg2.sendOk then 1 else 0)
    ∧ (receive_event config now ns (some ()) msg).1
        = streamEmits msg.decode ++ [.emit .streamClosedError]
    ∧ callsOn (run_amqp_source config now ns true true inputs).2
        msg.acker.id = 0 := by
  refine ⟨?_, ?_, ?_⟩
  · rcases hs : msg2.sendOk with _ | _ <;>
      simp [receive_event, finalize_event_stream, hs, registersOn,
        List.countP_append, List.countP_cons, isRegisterOn,
        streamEmits_countP (isRegisterOn msg2.acker.id) (fun _ => rfl)]
  · simp [receive_event, finalize_event_stream, h1]
  · have hle := loopRun_callsOn_le_completions config now ns inputs msg.acker.id
    simp only [run_amqp_source, maybe_new, if_pos] at *
    omega

/-- Witness for C3 at a concrete failing delivery and a run whose
completions never mention its handle. -/
theorem registration_iff_send_success_w :
    msgFail.sendOk = false
    ∧ completionsFor [.message msgFail, .shutdown] msgFail.acker.id = 0
    ∧ (registersOn (receive_event defaultConfig 0 .Legacy (some ()) msgOk).1
          msgOk.acker.id = (if msgOk.sendOk then 1 else 0)
      ∧ (receive_event defaultConfig 0 .Legacy (some ()) msgFail).1
          = streamEmits msgFail.decode ++ [.emit .streamClosedError]
      ∧ callsOn (run_amqp_source defaultConfig 0 .Legacy true true
          [.message msgFail, .shutdown]).2 msgFail.acker.id = 0) :=
  ⟨rfl, by decide,
   registration_iff_send_success defaultConfig 0 .Legacy msgFail msgOk
     [.message msgFail, .shutdown] rfl (by decide)⟩

/-- Vector-mode enrichment: the `amqp` metadata fields are set
unconditionally, the broker timestamp only when present, and the ingest
timestamp always. -/
theorem populate_vector_meta (e : LogEvent) (ts : Option Nat) (keys : Keys)
    (now : Nat) :
    (populate_event e ts keys .Vector now).getMeta ("amqp", "routing")
        = some (.str keys.routing)
    ∧ (populate_event e ts keys .Vector now).getMeta ("amqp", "exchange")
        = some (.str keys.exchange)
    ∧ (populate_event e ts keys .Vector now).getMeta ("amqp", "offset")
        = some (.int keys.delivery_tag)
    ∧ (populate_event e ts keys .Vector now).getMeta ("amqp", "timestamp")
        = (match ts with
           | some t => some (.timestamp t)
           | none => e.getMeta ("amqp", "timestamp"))
    ∧ (populate_event e ts keys .Vector now).getMeta ("vector", "ingest_timestamp")
        = some (.timestamp now) := by
  rcases ts with _ | t <;>
    simp [populate_event, insert_source_metadata, insert_vector_metadata,
      amqp_source_name, log_schema_source_type_key, getMeta_insertMeta]

/-- Legacy-mode enrichment of the routing field: merged at its configured
key only if not already present. -/
theorem populate_legacy_routing (e : LogEvent) (ts : Option Nat)
    (keys : Keys) (now : Nat)
    (h1 : keys.routing_key_field ≠ keys.exchange_key)
    (h2 : keys.routing_key_field ≠ keys.offset_key)
    (h3 : keys.routing_key_field ≠ "source_type")
    (h4 : keys.routing_key_field ≠ "timestamp") :
    (populate_event e ts keys .Legacy now).getField keys.routing_key_field
      = some ((e.getField keys.routing_key_field).getD (.str keys.routing)) := by
  simp [populate_event, insert_source_metadata, insert_vector_metadata,
    log_schema_timestamp_key, log_schema_source_type_key,
    getField_tryInsert_same, getField_tryInsert_other, h1, h2, h3, h4]

/-- Legacy-mode enrichment of the exchange field. -/
theorem populate_legacy_exchange (e : LogEvent) (ts : Option Nat)
    (keys : Keys) (now : Nat)
    (h1 : keys.exchange_key ≠ keys.routing_key_field)
    (h2 : keys.exchange_key ≠ keys.offset_key)
    (h3 : keys.exchange_key ≠ "source_type")
    (h4 : keys.exchange_key ≠ "timestamp") :
    (populate_event e ts keys .Legacy now).getField keys.exchange_key
      = some ((e.getField keys.exchange_key).getD (.str keys.exchange)) := by
  simp [populate_event, insert_source_metadata, insert_vector_metadata,
    log_schema_timestamp_key, log_schema_source_type_key,
    getField_tryInsert_same, getField_tryInsert_other, h1, h2, h3, h4]

/-- Legacy-mode enrichment of the offset field. -/
theorem populate_legacy_offset (e : LogEvent) (ts : Option Nat)
    (keys : Keys) (now : Nat)
    (h1 : keys.offset_key ≠ keys.routing_key_field)
    (h2 : keys.offset_key ≠ keys.exchange_key)
    (h3 : keys.offset_key ≠ "source_type")
    (h4 : keys.offset_key ≠ "timestamp") :
    (populate_event e ts keys .Legacy now).getField keys.offset_key
      = some ((e.getField keys.offset_key).getD (.int keys.delivery_tag)) := by
  simp [populate_event, insert_source_metadata, insert_vector_metadata,
    log_schema_timestamp_key, log_schema_source_type_key,
    getField_tryInsert_same, getField_tryInsert_other, h1, h2, h3, h4]

/-- Legacy-mode enrichment of the timestamp field: only if not already
present, with the broker timestamp falling back to `now`. -/
theorem populate_legacy_timestamp (e : LogEvent) (ts : Option Nat)
    (keys : Keys) (now : Nat)
    (h1 : ("timestamp" : String) ≠ keys.routing_key_field)
    (h2 : ("timestamp" : String) ≠ keys.exchange_key)
    (h3 : ("timestamp" : String) ≠ keys.offset_key) :
    (populate_event e ts keys .Legacy now).getField "timestamp"
      = some ((e.getField "timestamp").getD (.timestamp (ts.getD now))) := by
  simp [populate_event, insert_source_metadata, insert_vector_metadata,
    log_schema_timestamp_key, log_schema_source_type_key,
    getField_tryInsert_same, getField_tryInsert_other, h1, h2, h3]

/-- C7 counterexample: in legacy mode, a decoded record that already
carries a timestamp field keeps it — `populate_event` does not set the
timestamp to the broker time or the ingest time (here the broker sent no
timestamp and ingest time is 99, yet the field stays 5). -/
theorem populate_event_timestamp_cex :
    (populate_event eventWithTs none keys0 .Legacy 99).getField "timestamp"
        = some (.timestamp 5)
    ∧ (populate_event eventWithTs none keys0 .Legacy 99).getField "timestamp"
        ≠ some (.timestamp 99) := by decide

/-- C7 (amended): metadata enrichment is mode-dependent — in legacy mode
routing, exchange and offset are inserted at their configured top-level
keys only if not already present, and the timestamp field likewise only
if not already present, its value being the broker timestamp or, if
absent, the ingest time; in Vector mode routing, exchange and offset are
placed unconditionally under the `amqp` metadata namespace, the broker
timestamp is recorded only when present, and the ingest timestamp is
always recorded (stated for pairwise-distinct configured key names). -/
theorem populate_event_mode_fields (e : LogEvent) (ts : Option Nat)
    (keys : Keys) (now : Nat)
    (h1 : keys.routing_key_field ≠ keys.exchange_key)
    (h2 : keys.routing_key_field ≠ keys.offset_key)
    (h3 : keys.routing_key_field ≠ "source_type")
    (h4 : keys.routing_key_field ≠ "timestamp")
    (h5 : keys.exchange_key ≠ keys.offset_key)
    (h6 : keys.exchange_key ≠ "source_type")
    (h7 : keys.exchange_key ≠ "timestamp")
    (h8 : keys.offset_key ≠ "source_type")
    (h9 : keys.offset_key ≠ "timestamp") :
    PopulateSpec e ts keys now := by
  obtain ⟨v1, v2, v3, v4, v5⟩ := populate_vector_meta e ts keys now
  exact ⟨populate_legacy_routing e ts keys now h1 h2 h3 h4,
    populate_legacy_exchange e ts keys now h1.symm h5 h6 h7,
    populate_legacy_offset e ts keys now h2.symm h5.symm h8 h9,
    populate_legacy_timestamp e ts keys now h4.symm h7.symm h9.symm,
    v1, v2, v3, v4, v5⟩

/-- Witness for the amended C7 theorem at the default key names. -/
theorem populate_event_mode_fields_w :
    keys0.routing_key_field ≠ keys0.exchange_key
    ∧ keys0.routing_key_field ≠ keys0.offset_key
    ∧ keys0.routing_key_field ≠ "source_type"
    ∧ keys0.routing_key_field ≠ "timestamp"
    ∧ keys0.exchange_key ≠ keys0.offset_key
    ∧ keys0.exchange_key ≠ "source_type"
    ∧ keys0.exchange_key ≠ "timestamp"
    ∧ keys0.offset_key ≠ "source_type"
    ∧ keys0.offset_key ≠ "timestamp"
    ∧ PopulateSpec emptyEvent none keys0 7 :=
  ⟨by decide, by decide, by decide, by decide, by decide, by decide,
   by decide, by decide, by decide,
   populate_event_mode_fields emptyEvent none keys0 7 (by decide) (by decide)
     (by decide) (by decide) (by decide) (by decide) (by decide) (by decide)
     (by decide)⟩

/-- C10: the per-record offset is the broker delivery tag reinterpreted
as a signed 64-bit integer, so any tag at or above `2 ^ 63` is recorded
as the negative value `tag - 2 ^ 64`, not as the broker-assigned
sequence number itself. -/
theorem offset_is_wrapped_tag (config : AmqpSourceConfig) (e : LogEvent)
    (now : Nat) (msg : Delivery) (h1 : 2 ^ 63 ≤ msg.delivery_tag)
    (h2 : msg.delivery_tag < 2 ^ 64) :
    (keysOf config msg).delivery_tag = (msg.delivery_tag : Int) - 2 ^ 64
    ∧ (keysOf config msg).delivery_tag < 0
    ∧ (populate_event e msg.timestamp (keysOf config msg) .Vector now).getMeta
        ("amqp", "offset")
      = some (.int ((msg.delivery_tag : Int) - 2 ^ 64)) := by
  have hmod : msg.delivery_tag % 2 ^ 64 = msg.delivery_tag :=
    Nat.mod_eq_of_lt h2
  have hk : (keysOf config msg).delivery_tag
      = (msg.delivery_tag : Int) - 2 ^ 64 := by
    simp only [keysOf, u64_as_i64, hmod]
    rw [if_neg (by omega)]
  have hneg : (msg.delivery_tag : Int) - 2 ^ 64 < 0 := by
    have hc : (msg.delivery_tag : Int) < 2 ^ 64 := by exact_mod_cast h2
    omega
  have hoff :=
    (populate_vector_meta e msg.timestamp (keysOf config msg) now).2.2.1
  exact ⟨hk, by rw [hk]; exact hneg, by rw [hoff, hk]⟩

/-- Witness for C10 at the smallest tag with the top bit set. -/
theorem offset_is_wrapped_tag_w :
    2 ^ 63 ≤ msgBigTag.delivery_tag
    ∧ msgBigTag.delivery_tag < 2 ^ 64
    ∧ ((keysOf defaultConfig msgBigTag).delivery_tag
          = (msgBigTag.delivery_tag : Int) - 2 ^ 64
      ∧ (keysOf defaultConfig msgBigTag).delivery_tag < 0
      ∧ (populate_event emptyEvent msgBigTag.timestamp
            (keysOf defaultConfig msgBigTag) .Vector 0).getMeta
            ("amqp", "offset")
          = some (.int ((msgBigTag.delivery_tag : Int) - 2 ^ 64))) :=
  ⟨by decide, by decide,
   offset_is_wrapped_tag defaultConfig emptyEvent 0 msgBigTag (by decide)
     (by decide)⟩
